import Mathlib

/-!
Deferred Outcome: a verified model of the promise semantics exercised by
the repository's `src/explorations/mocha/promises.js`.

The repository's single source file is a mocha exploration of the `promise`
npm library (Forbes Lindesay's implementation); the Deferred Outcome
primitive itself is not part of the repository's sources, only its callers
(the tests) are.  Following the specification, we model the primitive as an
executable small-step system: a heap of outcomes, a cooperative task queue
for deferred continuation invocations, a timer queue for `setTimeout`-style
initializers, and a log recording every handler invocation together with its
argument.  The spec's design note §9 explicitly asks for the scheduler to be
modelled as an injectable task queue that a test can flush deterministically;
that is exactly what `run` below does.
-/

namespace Promises

/-- Modelled from the spec: the values flowing through outcomes.  A value is
either a plain host value (string, number, `undefined`, an error object
wrapping another value) or a reference to another Deferred Outcome in the
heap (the "nested outcome" case of §4.1/§9). -/
inductive Val where
  | str : String → Val
  | num : Int → Val
  | unit : Val
  | err : Val → Val
  | promiseRef : Nat → Val
deriving DecidableEq, Repr

/-- Duck-typed "is this a thenable" probe of §9: a value is treated as a
nested outcome exactly when it is a reference to one. -/
def asPromiseRef : Val → Option Nat
  | .promiseRef j => some j
  | _ => none

/-- Modelled from the spec: reaction handlers, the small language of handler
bodies the source tests use — return a constant, return the argument,
`throw new Error(arg)`, `assert.equal(arg, c)`, `assert.fail(...)`. -/
inductive Handler where
  | ret : Val → Handler
  | ident : Handler
  | throwErr : Handler
  | assertEq : Val → Handler
  | failAlways : Handler
deriving DecidableEq, Repr

deriving instance DecidableEq for Except

/-- Run a handler body on its argument: `.ok` is a normal return, `.error`
is a raised exception (a `HandlerFailure` in the spec's taxonomy, §7). -/
def evalHandler : Handler → Val → Except Val Val
  | .ret c, _ => .ok c
  | .ident, a => .ok a
  | .throwErr, a => .error (.err a)
  | .assertEq c, a => if a = c then .ok .unit else .error (.err (.str "assert.equal failed"))
  | .failAlways, _ => .error (.err (.str "assert.fail"))

/-- Modelled from the spec §3: `state` is one of `Pending`, `Fulfilled`
(carrying `value`), `Rejected` (carrying `reason`); the payloads live on the
terminal constructors, so `value` and `reason` are present exactly in the
matching state. -/
inductive PState where
  | pending
  | fulfilled (v : Val)
  | rejected (r : Val)
deriving DecidableEq, Repr

/-- A registered continuation: a pair of optional reaction handlers plus the
heap id of the Deferred Outcome representing their result (§3, §4.1). -/
structure Reaction where
  onFulfill : Option Handler
  onReject : Option Handler
  target : Nat
deriving DecidableEq, Repr

/-- Modelled from the spec §3: a Deferred Outcome is its state plus the
ordered sequence of registered continuations. -/
structure Outcome where
  state : PState
  continuations : List Reaction
deriving DecidableEq, Repr

/-- A scheduled task: a reaction to run against the (terminal) settlement of
its source outcome, on a later turn of the cooperative scheduler (§5). -/
structure Task where
  settled : PState
  reaction : Reaction
deriving DecidableEq, Repr

/-- What a timer set by an initializer does when it fires (§5: e.g. the
`setTimeout(function(){reject(...)}, 500)` initializer of the source). -/
inductive TimerAct where
  | callResolve (v : Val)
  | callReject (r : Val)
deriving DecidableEq, Repr

/-- A pending timer: remaining delay in ticks, the outcome id its callback
settles, and the action it performs. -/
structure Timer where
  remaining : Nat
  promiseId : Nat
  act : TimerAct
deriving DecidableEq, Repr

/-- Modelled from the spec §5/§9: the whole single-threaded system — the heap
of outcomes (ids are list indices, in allocation order), the cooperative
scheduler's task queue, the timer queue, a log of every handler invocation
`(target outcome id, was-fulfill-handler, argument)`, and a count of plain
(non-outcome) host objects allocated so far. -/
structure Sys where
  heap : List Outcome
  tasks : List Task
  timers : List Timer
  log : List (Nat × Bool × Val)
  objCount : Nat
deriving DecidableEq, Repr

def emptySys : Sys := ⟨[], [], [], [], 0⟩

def getOutcome (s : Sys) (id : Nat) : Outcome :=
  s.heap.getD id ⟨.pending, []⟩

def stateOf (s : Sys) (id : Nat) : PState :=
  (getOutcome s id).state

def setOutcome (s : Sys) (id : Nat) (o : Outcome) : Sys :=
  { s with heap := s.heap.set id o }

/-- Allocate a fresh `Pending` outcome, returning its id. -/
def alloc (s : Sys) : Nat × Sys :=
  (s.heap.length, { s with heap := s.heap ++ [⟨.pending, []⟩] })

/-- Register a reaction on outcome `id`: if `id` is still `Pending` the
reaction is appended to its continuations; if `id` is already terminal the
reaction is scheduled on the task queue — never run synchronously (§5), and
never missed (§3). -/
def enqueueReaction (s : Sys) (id : Nat) (rcn : Reaction) : Sys :=
  match (getOutcome s id).state with
  | .pending => setOutcome s id ⟨.pending, (getOutcome s id).continuations ++ [rcn]⟩
  | st => { s with tasks := s.tasks ++ [⟨st, rcn⟩] }

/-- Transition outcome `id` to terminal state `st` if and only if it is
still `Pending`, moving its continuations onto the task queue; a no-op on an
already-terminal outcome (§3, §4.1). -/
def settle (s : Sys) (id : Nat) (st : PState) : Sys :=
  match (getOutcome s id).state with
  | .pending =>
    { setOutcome s id ⟨st, []⟩ with
        tasks := s.tasks ++ (getOutcome s id).continuations.map (fun rcn => ⟨st, rcn⟩) }
  | _ => s

/-- Modelled from the spec §4.1 `resolve(value)`: fulfill with a plain value;
if `value` is itself a Deferred Outcome, adopt that inner outcome's eventual
state instead of wrapping it, by registering a handler-free adoption
reaction on the inner outcome; a no-op once terminal. -/
def resolve (s : Sys) (id : Nat) (v : Val) : Sys :=
  match asPromiseRef v with
  | some j =>
    match (getOutcome s id).state with
    | .pending => enqueueReaction s j ⟨none, none, id⟩
    | _ => s
  | none => settle s id (.fulfilled v)

/-- Modelled from the spec §4.1 `reject(reason)`: transition to `Rejected`
with `reason` iff still `Pending`; a no-op once terminal. -/
def reject (s : Sys) (id : Nat) (r : Val) : Sys :=
  settle s id (.rejected r)

/-- Run one scheduled reaction against the settlement of its source: invoke
the matching handler (logging the invocation) and settle the reaction's
target from its result; an absent handler propagates the settlement
unchanged; a raised exception rejects the target (§4.1, §7). -/
def runReaction (s : Sys) (t : Task) : Sys :=
  match t.settled with
  | .fulfilled v =>
    match t.reaction.onFulfill with
    | some h =>
      match evalHandler h v with
      | .ok w =>
        resolve { s with log := s.log ++ [(t.reaction.target, true, v)] } t.reaction.target w
      | .error e =>
        reject { s with log := s.log ++ [(t.reaction.target, true, v)] } t.reaction.target e
    | none => resolve s t.reaction.target v
  | .rejected r =>
    match t.reaction.onReject with
    | some h =>
      match evalHandler h r with
      | .ok w =>
        resolve { s with log := s.log ++ [(t.reaction.target, false, r)] } t.reaction.target w
      | .error e =>
        reject { s with log := s.log ++ [(t.reaction.target, false, r)] } t.reaction.target e
    | none => reject s t.reaction.target r
  | .pending => s

/-- One turn of the cooperative scheduler: pop and run the front task. -/
def step (s : Sys) : Sys :=
  match s.tasks with
  | [] => s
  | t :: rest => runReaction { s with tasks := rest } t

/-- Flush up to `n` scheduler turns (the spec's §9 deterministic flush). -/
def run : Nat → Sys → Sys
  | 0, s => s
  | n + 1, s => run n (step s)

/-- Fire one timer's callback. -/
def fireTimer (s : Sys) (t : Timer) : Sys :=
  match t.act with
  | .callResolve v => resolve s t.promiseId v
  | .callReject r => reject s t.promiseId r

/-- One tick of host time: every timer's remaining delay decreases by one,
and timers reaching zero fire, in order. -/
def tick (s : Sys) : Sys :=
  let dec := s.timers.map (fun t => { t with remaining := t.remaining - 1 })
  let fired := dec.filter (fun t => t.remaining = 0)
  let rest := dec.filter (fun t => ¬ t.remaining = 0)
  fired.foldl fireTimer { s with timers := rest }

/-- The effect of `n` ticks of host time. -/
def ticks : Nat → Sys → Sys
  | 0, s => s
  | n + 1, s => ticks n (tick s)

/-- Modelled from the spec §4.1: the initializer bodies the source uses —
`function(){}`, immediate `resolve`/`reject`, and
`setTimeout(function(){...}, delay)`. -/
inductive Init where
  | doNothing
  | callResolve (v : Val)
  | callReject (r : Val)
  | setTimer (delay : Nat) (act : TimerAct)
deriving DecidableEq, Repr

/-- Run an initializer body synchronously against a freshly allocated
outcome, giving it the `resolve`/`reject` capabilities (§4.1). -/
def runInit (s : Sys) (id : Nat) : Init → Sys
  | .doNothing => s
  | .callResolve v => resolve s id v
  | .callReject r => reject s id r
  | .setTimer d act => { s with timers := s.timers ++ [⟨d, id, act⟩] }

/-- Construct a Deferred Outcome from a callable initializer: allocate a
fresh `Pending` outcome and invoke the initializer synchronously (§4.1). -/
def construct (s : Sys) (i : Init) : Nat × Sys :=
  let (id, s1) := alloc s
  (id, runInit s1 id i)

/-- A constructor argument as seen dynamically by the host language: only
the function case is callable. -/
inductive JsArg where
  | undef
  | num (n : Int)
  | str (x : String)
  | fn (i : Init)
deriving DecidableEq, Repr

def isCallable : JsArg → Bool
  | .fn _ => true
  | _ => false

/-- Error taxonomy entry `InvalidArgument` of §7, "not a function" kind. -/
inductive ConstrError where
  | invalidArgumentNotAFunction
deriving DecidableEq, Repr

/-- Modelled from the spec §4.1: constructing without a valid (callable)
initializer fails synchronously with `InvalidArgument`, before any
asynchronous work begins; with a callable initializer, construction
succeeds. -/
def newOutcome (s : Sys) (a : JsArg) : Except ConstrError (Nat × Sys) :=
  match a with
  | .fn i => .ok (construct s i)
  | _ => .error .invalidArgumentNotAFunction

/-- Modelled from the spec §4.1 `then(onFulfill?, onReject?)`: allocate the
returned outcome and register the reaction pair; handlers are never invoked
synchronously here, only queued (§5). -/
def thenOn (s : Sys) (id : Nat) (onF onR : Option Handler) : Nat × Sys :=
  let (t, s1) := alloc s
  (t, enqueueReaction s1 id ⟨onF, onR, t⟩)

/-- Modelled from the spec §4.1 `catch(onReject)`: sugar for
`then(undefined, onReject)`. -/
def catchOn (s : Sys) (id : Nat) (onR : Handler) : Nat × Sys :=
  thenOn s id none (some onR)

/-- Modelled from the spec §4.1: the static convenience `Outcome.resolve`,
constructing and immediately resolving a new outcome synchronously (adopting
`v`'s state when `v` is itself an outcome). -/
def outcomeResolve (s : Sys) (v : Val) : Nat × Sys :=
  let (id, s1) := alloc s
  (id, resolve s1 id v)

/-- Modelled from the spec §4.1: the static convenience `Outcome.reject`,
constructing and immediately rejecting a new outcome synchronously. -/
def outcomeReject (s : Sys) (r : Val) : Nat × Sys :=
  let (id, s1) := alloc s
  (id, reject s1 id r)

/-- Modelled from the spec / host-language construction rule: evaluating
`new Outcome.reject(r)` (as the source's line 131 does) first allocates a
fresh plain object for `this`; `Outcome.reject` ignores `this` and returns
an outcome object, and the host's `new` yields a returned object as the
value of the whole expression. -/
def newCallReject (s : Sys) (r : Val) : Nat × Sys :=
  outcomeReject { s with objCount := s.objCount + 1 } r

/-- The source's "insta-resolving a Promise in before()" scenario (lines
63–86): `Outcome.resolve(v).then(f)`.  Outcome 0 is the resolved source,
outcome 1 the outcome returned by `then`. -/
def resolveThen (v : Val) (f : Handler) : Sys :=
  (thenOn (outcomeResolve emptySys v).2 0 (some f) none).2

/-- The source's "should fail if there is no catch()" scenario (lines
177–183): `Outcome.reject(r).then(f)` with no on-reject handler. -/
def rejectThen (r : Val) (f : Handler) : Sys :=
  (thenOn (outcomeReject emptySys r).2 0 (some f) none).2

/-- The late-registration / handled-rejection scenario (source lines
192–201): `Outcome.reject(r)` settles first, `catch(g)` is registered
afterwards.  Outcome 0 is the rejected source, outcome 1 the outcome
returned by `catch`. -/
def rejectCatch (r : Val) (g : Handler) : Sys :=
  (catchOn (outcomeReject emptySys r).2 0 g).2

/-- The source's "catch() throws intentionally" chain (lines 203–212):
`Outcome.reject(r).then(f).catch(g)`.  Outcome 0 is the source, outcome 1
the `then` result, outcome 2 the `catch` result. -/
def rejectThenCatch (r : Val) (f g : Handler) : Sys :=
  (catchOn (rejectThen r f) 1 g).2

/-- The nested-outcome adoption scenario: a pending outcome 0 (constructed
with the source's `function(){}` initializer) and an outcome 1 obtained by
`Outcome.resolve` applied to a reference to outcome 0. -/
def adoptScenario : Sys :=
  (outcomeResolve (construct emptySys .doNothing).2 (.promiseRef 0)).2

/-- Same adoption set-up through the `resolve` capability of a constructor
initializer instead of the static `Outcome.resolve`. -/
def adoptScenario2 : Sys :=
  (construct (construct emptySys .doNothing).2 (.callResolve (.promiseRef 0))).2

/-- The source's timer scenario (lines 142–156): an outcome whose
initializer arms a `d`-tick timer that rejects with `r`, with `catch(g)`
registered immediately (before the timer fires).  Outcome 0 is the timed
outcome, outcome 1 the outcome returned by `catch`. -/
def timerScenario (d : Nat) (r : Val) (g : Handler) : Sys :=
  (catchOn (construct emptySys (.setTimer d (.callReject r))).2 0 g).2

/-- The `timerScenario` system after the timer has counted down to `rem`
remaining ticks. -/
def timerSys (rem : Nat) (r : Val) (g : Handler) : Sys :=
  { heap := [⟨.pending, [⟨none, some g, 1⟩]⟩, ⟨.pending, []⟩]
    tasks := []
    timers := [⟨rem, 0, .callReject r⟩]
    log := []
    objCount := 0 }

/-! ## Heap access lemmas -/

theorem asPromiseRef_ref (j : Nat) : asPromiseRef (.promiseRef j) = some j := rfl

theorem getOutcome_setOutcome_ne (s : Sys) {i j : Nat} (o : Outcome) (h : i ≠ j) :
    getOutcome (setOutcome s j o) i = getOutcome s i := by
  simp [getOutcome, setOutcome, List.getElem?_set_ne (Ne.symm h)]

theorem stateOf_setOutcome_ne (s : Sys) {i j : Nat} (o : Outcome) (h : i ≠ j) :
    stateOf (setOutcome s j o) i = stateOf s i := by
  simp [stateOf, getOutcome_setOutcome_ne s o h]

/-! ## Field-preservation lemmas: which operations touch which fields -/

theorem log_settle (s : Sys) (id : Nat) (st : PState) :
    (settle s id st).log = s.log := by
  unfold settle
  split <;> rfl

theorem timers_settle (s : Sys) (id : Nat) (st : PState) :
    (settle s id st).timers = s.timers := by
  unfold settle
  split <;> rfl

theorem log_enqueueReaction (s : Sys) (id : Nat) (rcn : Reaction) :
    (enqueueReaction s id rcn).log = s.log := by
  unfold enqueueReaction
  split <;> rfl

theorem timers_enqueueReaction (s : Sys) (id : Nat) (rcn : Reaction) :
    (enqueueReaction s id rcn).timers = s.timers := by
  unfold enqueueReaction
  split <;> rfl

theorem log_resolve (s : Sys) (id : Nat) (v : Val) :
    (resolve s id v).log = s.log := by
  unfold resolve
  split
  · split
    · exact log_enqueueReaction ..
    · rfl
  · exact log_settle ..

theorem timers_resolve (s : Sys) (id : Nat) (v : Val) :
    (resolve s id v).timers = s.timers := by
  unfold resolve
  split
  · split
    · exact timers_enqueueReaction ..
    · rfl
  · exact timers_settle ..

theorem log_reject (s : Sys) (id : Nat) (r : Val) :
    (reject s id r).log = s.log := by
  simp [reject, log_settle]

theorem timers_reject (s : Sys) (id : Nat) (r : Val) :
    (reject s id r).timers = s.timers := by
  simp [reject, timers_settle]

theorem log_thenOn (s : Sys) (id : Nat) (onF onR : Option Handler) :
    ((thenOn s id onF onR).2).log = s.log := by
  simp [thenOn, alloc, log_enqueueReaction]

theorem timers_thenOn (s : Sys) (id : Nat) (onF onR : Option Handler) :
    ((thenOn s id onF onR).2).timers = s.timers := by
  simp [thenOn, alloc, timers_enqueueReaction]

theorem timers_runReaction (s : Sys) (t : Task) :
    (runReaction s t).timers = s.timers := by
  unfold runReaction
  split
  · split
    · split
      · exact timers_resolve ..
      · exact timers_reject ..
    · exact timers_resolve ..
  · split
    · split
      · exact timers_resolve ..
      · exact timers_reject ..
    · exact timers_reject ..
  · rfl

theorem timers_step (s : Sys) : (step s).timers = s.timers := by
  unfold step
  split
  · rfl
  · exact timers_runReaction ..

theorem log_runInit (s : Sys) (id : Nat) (i : Init) :
    (runInit s id i).log = s.log := by
  cases i <;> simp [runInit, log_resolve, log_reject]

theorem log_construct (s : Sys) (i : Init) :
    ((construct s i).2).log = s.log := by
  simp [construct, alloc, log_runInit]

/-! ## Terminal states are never changed again -/

theorem stateOf_settle_of_ne_pending (s : Sys) {id : Nat} (j : Nat) (st : PState)
    (h : stateOf s id ≠ .pending) :
    stateOf (settle s j st) id = stateOf s id := by
  unfold settle
  split
  · rename_i hst
    by_cases hij : id = j
    · subst hij; exact absurd hst h
    · exact stateOf_setOutcome_ne s _ hij
  · rfl

theorem stateOf_enqueueReaction (s : Sys) (j : Nat) (rcn : Reaction) (id : Nat) :
    stateOf (enqueueReaction s j rcn) id = stateOf s id := by
  unfold enqueueReaction
  split
  · rename_i hst
    by_cases hij : id = j
    · subst hij
      show (getOutcome (setOutcome s id _) id).state = _
      unfold getOutcome setOutcome
      by_cases hlt : id < s.heap.length
      · simp only [List.getD_eq_getElem?_getD, List.getElem?_set_self hlt,
          Option.getD_some]
        exact hst.symm
      · rw [List.set_eq_of_length_le (by omega)]; rfl
    · exact stateOf_setOutcome_ne s _ hij
  · rfl

theorem stateOf_resolve_of_ne_pending (s : Sys) {id : Nat} (j : Nat) (v : Val)
    (h : stateOf s id ≠ .pending) :
    stateOf (resolve s j v) id = stateOf s id := by
  unfold resolve
  split
  · split
    · exact stateOf_enqueueReaction ..
    · rfl
  · exact stateOf_settle_of_ne_pending s j _ h

theorem stateOf_reject_of_ne_pending (s : Sys) {id : Nat} (j : Nat) (r : Val)
    (h : stateOf s id ≠ .pending) :
    stateOf (reject s j r) id = stateOf s id := by
  simpa [reject] using stateOf_settle_of_ne_pending s j (.rejected r) h

theorem stateOf_runReaction_of_ne_pending (s : Sys) (t : Task) {id : Nat}
    (h : stateOf s id ≠ .pending) :
    stateOf (runReaction s t) id = stateOf s id := by
  unfold runReaction
  split
  · split
    · split
      · exact stateOf_resolve_of_ne_pending _ _ _ h
      · exact stateOf_reject_of_ne_pending _ _ _ h
    · exact stateOf_resolve_of_ne_pending _ _ _ h
  · split
    · split
      · exact stateOf_resolve_of_ne_pending _ _ _ h
      · exact stateOf_reject_of_ne_pending _ _ _ h
    · exact stateOf_reject_of_ne_pending _ _ _ h
  · rfl

theorem stateOf_step_of_ne_pending (s : Sys) {id : Nat}
    (h : stateOf s id ≠ .pending) :
    stateOf (step s) id = stateOf s id := by
  unfold step
  cases s.tasks with
  | nil => rfl
  | cons t rest =>
    have h' : stateOf { s with tasks := rest } id ≠ .pending := h
    exact stateOf_runReaction_of_ne_pending _ t h'

theorem stateOf_fireTimer_of_ne_pending (s : Sys) (t : Timer) {id : Nat}
    (h : stateOf s id ≠ .pending) :
    stateOf (fireTimer s t) id = stateOf s id := by
  unfold fireTimer
  cases t.act with
  | callResolve v => exact stateOf_resolve_of_ne_pending s _ v h
  | callReject r => exact stateOf_reject_of_ne_pending s _ r h

theorem stateOf_foldl_fireTimer_of_ne_pending (l : List Timer) (s : Sys) {id : Nat}
    (h : stateOf s id ≠ .pending) :
    stateOf (l.foldl fireTimer s) id = stateOf s id := by
  induction l generalizing s with
  | nil => rfl
  | cons t rest ih =>
    have h1 := stateOf_fireTimer_of_ne_pending s t h
    have h2 : stateOf (fireTimer s t) id ≠ .pending := by rw [h1]; exact h
    simp [List.foldl_cons, ih _ h2, h1]

theorem stateOf_tick_of_ne_pending (s : Sys) {id : Nat}
    (h : stateOf s id ≠ .pending) :
    stateOf (tick s) id = stateOf s id := by
  unfold tick
  exact stateOf_foldl_fireTimer_of_ne_pending _ _ h

/-- A terminal outcome is inert: `resolve` and `reject` on it return the
system unchanged. -/
theorem resolve_of_ne_pending (s : Sys) {id : Nat} (v : Val)
    (h : stateOf s id ≠ .pending) :
    resolve s id v = s := by
  unfold resolve
  cases asPromiseRef v with
  | some j =>
    cases hst : (getOutcome s id).state
    · exact absurd hst h
    · simp [hst]
    · simp [hst]
  | none =>
    unfold settle
    cases hst : (getOutcome s id).state
    · exact absurd hst h
    · simp [hst]
    · simp [hst]

theorem reject_of_ne_pending (s : Sys) {id : Nat} (r : Val)
    (h : stateOf s id ≠ .pending) :
    reject s id r = s := by
  unfold reject settle
  cases hst : (getOutcome s id).state
  · exact absurd hst h
  · simp [hst]
  · simp [hst]

/-- Flushing the scheduler does nothing once the task queue is empty. -/
theorem run_of_tasks_nil (n : Nat) (s : Sys) (h : s.tasks = []) :
    run n s = s := by
  induction n with
  | zero => rfl
  | succ n ih => simp [run, step, h, ih]

/-! ## Claim theorems -/

/-- A concrete already-settled system used by witnesses: `Outcome.reject("x")`
(the settled outcome is id 0). -/
def demoSettled : Sys := (outcomeReject emptySys (.str "x")).2

/-- C1: a Deferred Outcome's state transitions at most once, from `Pending`
to exactly one of `Fulfilled` or `Rejected`: once terminal, `resolve` and
`reject` are observable no-ops (the whole system is unchanged), neither the
scheduler nor a timer tick ever changes a terminal state (so the settled
value/reason is immutable), and a state cannot carry a value and a reason at
the same time. -/
theorem c1_settlement_is_final (s : Sys) (id : Nat) (v r v' r' : Val)
    (h : stateOf s id ≠ .pending) :
    resolve s id v = s ∧
    reject s id r = s ∧
    stateOf (step s) id = stateOf s id ∧
    stateOf (tick s) id = stateOf s id ∧
    ¬(stateOf s id = .fulfilled v' ∧ stateOf s id = .rejected r') :=
  ⟨resolve_of_ne_pending s v h, reject_of_ne_pending s r h,
   stateOf_step_of_ne_pending s h, stateOf_tick_of_ne_pending s h,
   by rintro ⟨h1, h2⟩; rw [h1] at h2; exact PState.noConfusion h2⟩

theorem c1_settlement_is_final_witness :
    stateOf demoSettled 0 ≠ .pending ∧
    (resolve demoSettled 0 (.str "y") = demoSettled ∧
     reject demoSettled 0 (.str "z") = demoSettled ∧
     stateOf (step demoSettled) 0 = stateOf demoSettled 0 ∧
     stateOf (tick demoSettled) 0 = stateOf demoSettled 0 ∧
     ¬(stateOf demoSettled 0 = .fulfilled (.str "a") ∧
       stateOf demoSettled 0 = .rejected (.str "b"))) :=
  ⟨by decide, c1_settlement_is_final demoSettled 0 _ _ _ _ (by decide)⟩

/-- C2: `Outcome.resolve(v)` is fulfilled with `v`; `Outcome.resolve(v).then(f)`
registers `f` without invoking it (the returned outcome is still pending and
the invocation log untouched when `then` returns), then a later scheduler
turn invokes `f` with `v` exactly once, and the outcome returned by `then`
resolves with `f`'s return value. -/
theorem c2_resolve_then (v w : Val) (f : Handler)
    (hv : asPromiseRef v = none)
    (hf : evalHandler f v = .ok w)
    (hw : asPromiseRef w = none) :
    stateOf (outcomeResolve emptySys v).2 0 = .fulfilled v ∧
    (resolveThen v f).log = [] ∧
    stateOf (resolveThen v f) 1 = .pending ∧
    (run 5 (resolveThen v f)).log = [(1, true, v)] ∧
    stateOf (run 5 (resolveThen v f)) 1 = .fulfilled w ∧
    (run 5 (resolveThen v f)).tasks = [] := by
  have e1 : resolveThen v f =
      { heap := [⟨.fulfilled v, []⟩, ⟨.pending, []⟩]
        tasks := [⟨.fulfilled v, ⟨some f, none, 1⟩⟩]
        timers := [], log := [], objCount := 0 } := by
    simp [resolveThen, thenOn, outcomeResolve, alloc, resolve, hv, settle,
      enqueueReaction, getOutcome, setOutcome, emptySys]
  have e2 : run 5 (resolveThen v f) =
      { heap := [⟨.fulfilled v, []⟩, ⟨.fulfilled w, []⟩]
        tasks := []
        timers := [], log := [(1, true, v)], objCount := 0 } := by
    rw [e1]
    simp [run, step, runReaction, hf, resolve, hw, settle, getOutcome,
      setOutcome]
  have e0 : stateOf (outcomeResolve emptySys v).2 0 = .fulfilled v := by
    simp [outcomeResolve, alloc, resolve, hv, settle, getOutcome, setOutcome,
      emptySys, stateOf]
  exact ⟨e0, by rw [e1], by rw [e1]; rfl, by rw [e2], by rw [e2]; rfl,
    by rw [e2]⟩

theorem c2_resolve_then_witness :
    (asPromiseRef (.str "basically, unit") = none ∧
     evalHandler (.assertEq (.str "basically, unit")) (.str "basically, unit") =
       .ok .unit ∧
     asPromiseRef .unit = none) ∧
    (stateOf (outcomeResolve emptySys (.str "basically, unit")).2 0 =
       .fulfilled (.str "basically, unit") ∧
     (resolveThen (.str "basically, unit")
        (.assertEq (.str "basically, unit"))).log = [] ∧
     stateOf (resolveThen (.str "basically, unit")
        (.assertEq (.str "basically, unit"))) 1 = .pending ∧
     (run 5 (resolveThen (.str "basically, unit")
        (.assertEq (.str "basically, unit")))).log =
       [(1, true, .str "basically, unit")] ∧
     stateOf (run 5 (resolveThen (.str "basically, unit")
        (.assertEq (.str "basically, unit")))) 1 = .fulfilled .unit ∧
     (run 5 (resolveThen (.str "basically, unit")
        (.assertEq (.str "basically, unit")))).tasks = []) :=
  ⟨by decide, c2_resolve_then _ _ _ (by decide) (by decide) (by decide)⟩

/-- C3: `Outcome.reject(r)` is rejected with `r`; `Outcome.reject(r).then(f)`
never invokes `f` (the invocation log stays empty even after the scheduler
is flushed), and with no on-reject handler the rejection propagates with the
same reason `r` to the outcome returned by `then`. -/
theorem c3_rejection_propagates (r : Val) (f : Handler) :
    stateOf (outcomeReject emptySys r).2 0 = .rejected r ∧
    (rejectThen r f).log = [] ∧
    (run 5 (rejectThen r f)).log = [] ∧
    stateOf (run 5 (rejectThen r f)) 1 = .rejected r ∧
    (run 5 (rejectThen r f)).tasks = [] := by
  refine ⟨rfl, rfl, ?_, ?_, ?_⟩ <;> rfl

/-- C6: constructing a Deferred Outcome with a non-callable initializer
argument (absent, a number, a string, …) fails — synchronously, before any
Sys is even produced — with the `InvalidArgument` "not a function" error,
and exactly the non-callable arguments fail this way; any callable
initializer succeeds and yields the constructed outcome, and construction
itself never invokes a reaction handler. -/
theorem c6_constructor_validation (s : Sys) (a : JsArg) (i : Init) :
    (isCallable a = false ↔
      newOutcome s a = .error .invalidArgumentNotAFunction) ∧
    newOutcome s (.fn i) = .ok (construct s i) ∧
    ((construct s i).2).log = s.log := by
  refine ⟨?_, rfl, log_construct s i⟩
  cases a <;> simp [newOutcome, isCallable]

/-- Flushing the scheduler after the late-`catch` scenario invokes the catch
handler exactly once with the rejection reason, whatever the handler does
with it. -/
theorem run_rejectCatch_log (r : Val) (g : Handler) :
    (run 5 (rejectCatch r g)).log = [(1, false, r)] := by
  have e1 : rejectCatch r g =
      { heap := [⟨.rejected r, []⟩, ⟨.pending, []⟩]
        tasks := [⟨.rejected r, ⟨none, some g, 1⟩⟩]
        timers := [], log := [], objCount := 0 } := rfl
  rw [e1]
  rcases hg : evalHandler g r with e | w
  · simp [run, step, runReaction, hg, reject, settle, getOutcome, setOutcome]
  · rcases w with x | x | _ | x | (_ | _ | j) <;>
      simp [run, step, runReaction, hg, resolve, reject, settle,
        enqueueReaction, getOutcome, setOutcome, asPromiseRef]

/-- C4: `catch(g)` is exactly `then(undefined, g)`; on a rejected chain with
reason `r` the handler `g` is invoked with `r` exactly once, and when `g`
returns normally the outcome returned by `catch` fulfills with `g`'s return
value — the rejection is handled. -/
theorem c4_catch_is_sugared_then (s : Sys) (id : Nat) (r w : Val) (g : Handler)
    (hg : evalHandler g r = .ok w) (hw : asPromiseRef w = none) :
    catchOn s id g = thenOn s id none (some g) ∧
    (run 5 (rejectCatch r g)).log = [(1, false, r)] ∧
    stateOf (run 5 (rejectCatch r g)) 1 = .fulfilled w ∧
    (run 5 (rejectCatch r g)).tasks = [] := by
  have e1 : rejectCatch r g =
      { heap := [⟨.rejected r, []⟩, ⟨.pending, []⟩]
        tasks := [⟨.rejected r, ⟨none, some g, 1⟩⟩]
        timers := [], log := [], objCount := 0 } := rfl
  have e2 : run 5 (rejectCatch r g) =
      { heap := [⟨.rejected r, []⟩, ⟨.fulfilled w, []⟩]
        tasks := []
        timers := [], log := [(1, false, r)], objCount := 0 } := by
    rw [e1]
    simp [run, step, runReaction, hg, resolve, hw, settle, getOutcome,
      setOutcome]
  exact ⟨rfl, by rw [e2], by rw [e2]; rfl, by rw [e2]⟩

theorem c4_catch_is_sugared_then_witness :
    (evalHandler (.ret .unit) (.str "bad") = .ok .unit ∧
     asPromiseRef .unit = none) ∧
    (catchOn emptySys 0 (.ret .unit) = thenOn emptySys 0 none (some (.ret .unit)) ∧
     (run 5 (rejectCatch (.str "bad") (.ret .unit))).log =
       [(1, false, .str "bad")] ∧
     stateOf (run 5 (rejectCatch (.str "bad") (.ret .unit))) 1 =
       .fulfilled .unit ∧
     (run 5 (rejectCatch (.str "bad") (.ret .unit))).tasks = []) :=
  ⟨by decide, c4_catch_is_sugared_then emptySys 0 _ _ _ (by decide) (by decide)⟩

/-- C5: a reaction handler that throws (here the `catch` handler `g` on the
chain `Outcome.reject(r).then(f).catch(g)`) has its exception caught and
converted into rejection of the outcome returned by that `catch`: `f` is
never invoked, `g` runs exactly once, the original chain (outcomes 0 and 1)
keeps its rejection `r` untouched, the downstream outcome 2 rejects with the
thrown error, and the scheduler quiesces — no host-level exception
escapes. -/
theorem c5_throwing_handler_rejects_downstream (r e : Val) (f g : Handler)
    (hg : evalHandler g r = .error e) :
    (run 9 (rejectThenCatch r f g)).log = [(2, false, r)] ∧
    stateOf (run 9 (rejectThenCatch r f g)) 0 = .rejected r ∧
    stateOf (run 9 (rejectThenCatch r f g)) 1 = .rejected r ∧
    stateOf (run 9 (rejectThenCatch r f g)) 2 = .rejected e ∧
    (run 9 (rejectThenCatch r f g)).tasks = [] := by
  have e1 : rejectThenCatch r f g =
      { heap := [⟨.rejected r, []⟩, ⟨.pending, [⟨none, some g, 2⟩]⟩,
                 ⟨.pending, []⟩]
        tasks := [⟨.rejected r, ⟨some f, none, 1⟩⟩]
        timers := [], log := [], objCount := 0 } := rfl
  have e2 : run 9 (rejectThenCatch r f g) =
      { heap := [⟨.rejected r, []⟩, ⟨.rejected r, []⟩, ⟨.rejected e, []⟩]
        tasks := []
        timers := [], log := [(2, false, r)], objCount := 0 } := by
    rw [e1]
    simp [run, step, runReaction, hg, reject, resolve, settle,
      enqueueReaction, getOutcome, setOutcome]
  exact ⟨by rw [e2], by rw [e2]; rfl, by rw [e2]; rfl, by rw [e2]; rfl,
    by rw [e2]⟩

theorem c5_throwing_handler_rejects_downstream_witness :
    evalHandler .throwErr (.str "bad") = .error (.err (.str "bad")) ∧
    ((run 9 (rejectThenCatch (.str "bad") .failAlways .throwErr)).log =
       [(2, false, .str "bad")] ∧
     stateOf (run 9 (rejectThenCatch (.str "bad") .failAlways .throwErr)) 0 =
       .rejected (.str "bad") ∧
     stateOf (run 9 (rejectThenCatch (.str "bad") .failAlways .throwErr)) 1 =
       .rejected (.str "bad") ∧
     stateOf (run 9 (rejectThenCatch (.str "bad") .failAlways .throwErr)) 2 =
       .rejected (.err (.str "bad")) ∧
     (run 9 (rejectThenCatch (.str "bad") .failAlways .throwErr)).tasks = []) :=
  ⟨by decide, c5_throwing_handler_rejects_downstream _ _ .failAlways _ (by decide)⟩

/-- C7: continuation handlers are never invoked synchronously inside
`resolve`, `reject` or `then` (none of them ever extends the invocation
log), and a continuation registered on an already-terminal outcome is not
missed: registration leaves the log untouched and the returned outcome
pending, and a later scheduler turn invokes the handler exactly once. -/
theorem c7_handlers_always_deferred (s : Sys) (id : Nat) (v r : Val)
    (onF onR : Option Handler) (g : Handler) :
    (resolve s id v).log = s.log ∧
    (reject s id r).log = s.log ∧
    ((thenOn s id onF onR).2).log = s.log ∧
    (rejectCatch r g).log = [] ∧
    stateOf (rejectCatch r g) 1 = .pending ∧
    (run 5 (rejectCatch r g)).log = [(1, false, r)] :=
  ⟨log_resolve s id v, log_reject s id r, log_thenOn s id onF onR,
   rfl, rfl, run_rejectCatch_log r g⟩

/-- C8: resolving with a Deferred Outcome does not wrap it: the resolved-with
outcome stays pending (no `Fulfilled`-with-an-outcome state is ever
produced) and adopts the inner outcome's eventual state — fulfilling with
its value if it fulfills, rejecting with its reason if it rejects — through
the `resolve` capability and through `Outcome.resolve`, including when the
inner outcome is already settled. -/
theorem c8_adopts_nested_outcome (v r : Val) (hv : asPromiseRef v = none) :
    stateOf adoptScenario 1 = .pending ∧
    stateOf adoptScenario2 1 = .pending ∧
    stateOf (run 5 (resolve adoptScenario 0 v)) 1 = .fulfilled v ∧
    stateOf (run 5 (reject adoptScenario 0 r)) 1 = .rejected r ∧
    stateOf (run 5 (resolve adoptScenario2 0 v)) 1 = .fulfilled v ∧
    stateOf (run 5 (reject adoptScenario2 0 r)) 1 = .rejected r ∧
    stateOf
      (run 5 (outcomeResolve (outcomeResolve emptySys v).2 (.promiseRef 0)).2)
      1 = .fulfilled v := by
  have e0 : adoptScenario =
      { heap := [⟨.pending, [⟨none, none, 1⟩]⟩, ⟨.pending, []⟩]
        tasks := [], timers := [], log := [], objCount := 0 } := rfl
  have e0' : adoptScenario2 = adoptScenario := rfl
  have hres : stateOf (run 5 (resolve adoptScenario 0 v)) 1 = .fulfilled v := by
    rw [e0]
    simp [run, step, runReaction, resolve, hv, settle, enqueueReaction,
      getOutcome, setOutcome, stateOf]
  have hrej : stateOf (run 5 (reject adoptScenario 0 r)) 1 = .rejected r := by
    rw [e0]
    simp [run, step, runReaction, reject, settle, enqueueReaction,
      getOutcome, setOutcome, stateOf]
  have hsettled :
      stateOf
        (run 5 (outcomeResolve (outcomeResolve emptySys v).2 (.promiseRef 0)).2)
        1 = .fulfilled v := by
    have e2 : (outcomeResolve emptySys v).2 =
        { heap := [⟨.fulfilled v, []⟩]
          tasks := [], timers := [], log := [], objCount := 0 } := by
      simp [outcomeResolve, alloc, resolve, hv, settle, getOutcome, setOutcome,
        emptySys]
    rw [e2]
    simp [run, step, runReaction, outcomeResolve, alloc, resolve, hv,
      asPromiseRef_ref, settle, enqueueReaction, getOutcome, setOutcome,
      stateOf]
  exact ⟨rfl, rfl, hres, hrej, by rw [e0']; exact hres, by rw [e0']; exact hrej,
    hsettled⟩

theorem c8_adopts_nested_outcome_witness :
    asPromiseRef (.str "v") = none ∧
    (stateOf adoptScenario 1 = .pending ∧
     stateOf adoptScenario2 1 = .pending ∧
     stateOf (run 5 (resolve adoptScenario 0 (.str "v"))) 1 =
       .fulfilled (.str "v") ∧
     stateOf (run 5 (reject adoptScenario 0 (.str "r"))) 1 =
       .rejected (.str "r") ∧
     stateOf (run 5 (resolve adoptScenario2 0 (.str "v"))) 1 =
       .fulfilled (.str "v") ∧
     stateOf (run 5 (reject adoptScenario2 0 (.str "r"))) 1 =
       .rejected (.str "r") ∧
     stateOf
       (run 5 (outcomeResolve (outcomeResolve emptySys (.str "v")).2
         (.promiseRef 0)).2) 1 = .fulfilled (.str "v")) :=
  ⟨by decide, c8_adopts_nested_outcome _ _ (by decide)⟩

/-! ## Timer lemmas for the delayed-rejection scenario -/

theorem timerScenario_eq (d : Nat) (r : Val) (g : Handler) :
    timerScenario d r g = timerSys d r g := rfl

theorem tick_timerSys (n : Nat) (r : Val) (g : Handler) :
    tick (timerSys (n + 2) r g) = timerSys (n + 1) r g := by
  simp [tick, timerSys, fireTimer]

theorem ticks_timerSys (r : Val) (g : Handler) :
    ∀ k m, k ≤ m → ticks k (timerSys (m + 1) r g) = timerSys (m + 1 - k) r g := by
  intro k
  induction k with
  | zero => intro m _; rfl
  | succ k ih =>
    intro m hk
    match m, hk with
    | m' + 1, hk =>
      have h1 : ticks (k + 1) (timerSys (m' + 2) r g) =
          ticks k (tick (timerSys (m' + 2) r g)) := rfl
      rw [h1, tick_timerSys, ih m' (by omega)]
      congr 1
      omega

theorem ticks_succ' (n : Nat) (s : Sys) : ticks (n + 1) s = tick (ticks n s) := by
  induction n generalizing s with
  | zero => rfl
  | succ n ih =>
    rw [show ticks (n + 2) s = ticks (n + 1) (tick s) from rfl, ih (tick s)]
    rfl

/-- Firing the timer delivers the timed rejection: the system becomes
exactly the rejected-source-with-registered-catch system. -/
theorem tick_timerSys_one (r : Val) (g : Handler) :
    tick (timerSys 1 r g) = rejectCatch r g := rfl

/-- C9: with an initializer that arms a delay-`(m+1)` timer rejecting with
`r` and a reject handler `g` registered immediately: at every instant `k`
strictly before the delay the handler has not run (even if the scheduler is
flushed) and the timer is still armed with `m + 1 - k` ticks to go — there
is no way to abort it, since neither a scheduler turn nor registering more
continuations touches the timer queue — and once the delay elapses the
handler is invoked exactly once, with `r`. -/
theorem c9_delayed_timer_rejection (s : Sys) (id : Nat)
    (onF onR : Option Handler) (m k : Nat) (r : Val) (g : Handler)
    (hk : k < m + 1) :
    (ticks k (timerScenario (m + 1) r g)).log = [] ∧
    (ticks k (timerScenario (m + 1) r g)).timers =
      [⟨m + 1 - k, 0, .callReject r⟩] ∧
    (run 5 (ticks k (timerScenario (m + 1) r g))).log = [] ∧
    (run 5 (ticks (m + 1) (timerScenario (m + 1) r g))).log = [(1, false, r)] ∧
    (step s).timers = s.timers ∧
    ((thenOn s id onF onR).2).timers = s.timers := by
  have h1 : ticks k (timerScenario (m + 1) r g) = timerSys (m + 1 - k) r g := by
    rw [timerScenario_eq]; exact ticks_timerSys r g k m (by omega)
  have h2 : ticks (m + 1) (timerScenario (m + 1) r g) = rejectCatch r g := by
    rw [timerScenario_eq, ticks_succ', ticks_timerSys r g m m (Nat.le_refl m),
      show m + 1 - m = 1 by omega, tick_timerSys_one]
  refine ⟨?_, ?_, ?_, ?_, timers_step s, timers_thenOn ..⟩
  · rw [h1]; rfl
  · rw [h1]; rfl
  · rw [h1, run_of_tasks_nil 5 _ rfl]; rfl
  · rw [h2]; exact run_rejectCatch_log r g

theorem c9_delayed_timer_rejection_witness :
    1 < 499 + 1 ∧
    ((ticks 1 (timerScenario (499 + 1) (.str "Intentionally timed out") (.ret .unit))).log = [] ∧
     (ticks 1 (timerScenario (499 + 1) (.str "Intentionally timed out") (.ret .unit))).timers =
       [⟨499 + 1 - 1, 0, .callReject (.str "Intentionally timed out")⟩] ∧
     (run 5 (ticks 1 (timerScenario (499 + 1) (.str "Intentionally timed out") (.ret .unit)))).log = [] ∧
     (run 5 (ticks (499 + 1) (timerScenario (499 + 1) (.str "Intentionally timed out") (.ret .unit)))).log =
       [(1, false, .str "Intentionally timed out")] ∧
     (step emptySys).timers = emptySys.timers ∧
     ((thenOn emptySys 0 none none).2).timers = emptySys.timers) :=
  ⟨by decide,
   c9_delayed_timer_rejection emptySys 0 none none 499 1 _ _ (by decide)⟩

/-- The static reject ignores the host-object allocation counter: starting it
from a system that differs only in `objCount` produces the same outcome id
and a system differing only in `objCount`. -/
theorem outcomeReject_objCount (s : Sys) (c : Nat) (r : Val) :
    outcomeReject { s with objCount := c } r =
      ((outcomeReject s r).1, { (outcomeReject s r).2 with objCount := c }) := by
  cases hst : ((s.heap ++ [(⟨.pending, []⟩ : Outcome)]).getD s.heap.length
      (⟨.pending, []⟩ : Outcome)).state <;>
    simp [outcomeReject, alloc, reject, settle, getOutcome, setOutcome, hst]

/-- C10: invoking the static `Outcome.reject(r)` with `new` behaves exactly
like the plain call: the same outcome id comes back, the heap, task queue
and log evolve identically (only the count of plain host objects differs by
the discarded `this`), the outcome is `Rejected` with `r`, and downstream
propagation through `then` is identical — the on-fulfill handler is never
invoked and the rejection reaches the outcome `then` returns unchanged. -/
theorem c10_new_of_static_reject (s : Sys) (r : Val) (f : Handler) :
    (newCallReject s r).1 = (outcomeReject s r).1 ∧
    ((newCallReject s r).2).heap = ((outcomeReject s r).2).heap ∧
    ((newCallReject s r).2).tasks = ((outcomeReject s r).2).tasks ∧
    ((newCallReject s r).2).log = ((outcomeReject s r).2).log ∧
    ((newCallReject s r).2).objCount = ((outcomeReject s r).2).objCount + 1 ∧
    stateOf (newCallReject emptySys r).2 0 = .rejected r ∧
    (run 5 (thenOn (newCallReject emptySys r).2 0 (some f) none).2).log = [] ∧
    stateOf (run 5 (thenOn (newCallReject emptySys r).2 0 (some f) none).2) 1 =
      .rejected r := by
  have h := outcomeReject_objCount s (s.objCount + 1) r
  have hobj : ∀ s' : Sys, ∀ r', ((outcomeReject s' r').2).objCount = s'.objCount := by
    intro s' r'
    cases hst : ((s'.heap ++ [(⟨.pending, []⟩ : Outcome)]).getD s'.heap.length
        (⟨.pending, []⟩ : Outcome)).state <;>
      simp [outcomeReject, alloc, reject, settle, getOutcome, setOutcome, hst]
  refine ⟨?_, ?_, ?_, ?_, ?_, rfl, rfl, rfl⟩ <;>
    simp [newCallReject, h, hobj]

end Promises
